import Mathlib

set_option maxHeartbeats 1000000
set_option maxRecDepth 8192

namespace ShellyExporter

/-- Shallow embedding of `serde_json::Value` as consumed by
src/shelly_service.rs.  A number constructor carries the text that
serde_json's `Display` prints for the stored numeric value (the repository
never inspects numbers other than by printing them). -/
inductive Json where
  | null
  | bool (b : Bool)
  | num (text : String)
  | str (s : String)
  | arr (items : List Json)
  | obj (fields : List (String × Json))

/-- One hexadecimal digit, used by the JSON string escaper. -/
def hexDigit (n : Nat) : String :=
  String.singleton (if n < 10 then Char.ofNat (48 + n) else Char.ofNat (87 + n))

/-- How serde_json escapes one character inside a JSON string literal. -/
def escapeChar (c : Char) : String :=
  if c = '"' then "\\\""
  else if c = '\\' then "\\\\"
  else if c = Char.ofNat 0x08 then "\\b"
  else if c = Char.ofNat 0x09 then "\\t"
  else if c = Char.ofNat 0x0a then "\\n"
  else if c = Char.ofNat 0x0c then "\\f"
  else if c = Char.ofNat 0x0d then "\\r"
  else if c.toNat < 0x20 then "\\u00" ++ hexDigit (c.toNat / 16) ++ hexDigit (c.toNat % 16)
  else String.singleton c

/-- serde_json's escaping of a whole string. -/
def escapeString (s : String) : String :=
  String.join (s.data.map escapeChar)

mutual

/-- The compact rendering serde_json's `Display for Value` produces; this is
what Rust's `format!` interpolates for `http_data[...]` in
convert_to_prometheus.  `Null` prints as the literal text `null`. -/
def Json.display : Json → String
  | .null => "null"
  | .bool true => "true"
  | .bool false => "false"
  | .num t => t
  | .str s => "\"" ++ escapeString s ++ "\""
  | .arr items => "[" ++ Json.displayItems items ++ "]"
  | .obj fields => "\x7b" ++ Json.displayFields fields ++ "\x7d"

/-- Comma-separated rendering of array elements. -/
def Json.displayItems : List Json → String
  | [] => ""
  | [j] => Json.display j
  | j :: rest => Json.display j ++ "," ++ Json.displayItems rest

/-- Comma-separated rendering of object entries. -/
def Json.displayFields : List (String × Json) → String
  | [] => ""
  | [(k, v)] => "\"" ++ escapeString k ++ "\":" ++ Json.display v
  | (k, v) :: rest =>
      "\"" ++ escapeString k ++ "\":" ++ Json.display v ++ "," ++ Json.displayFields rest

end

/-- Lookup of a key among an object's entries, as serde_json's `Map::get`
(parsed objects carry each key once). -/
def Json.getField : List (String × Json) → String → Option Json
  | [], _ => none
  | (k, v) :: rest, key => if k = key then some v else Json.getField rest key

/-- serde_json's `value[key]` indexing for `&str` keys: the entry when the
value is an object holding the key, and `Null` when the key is absent or the
value is not an object (the `Index` impl returns `&Value::NULL` then). -/
def Json.index (j : Json) (key : String) : Json :=
  match j with
  | .obj fields =>
      match Json.getField fields key with
      | some v => v
      | none => .null
  | _ => .null

/-- The device record of src/shelly_service.rs (`pub struct ShellySmartPlug`).
The source field `alias` is a Lean keyword, so it is written `«alias»`. -/
structure ShellySmartPlug where
  url : String
  «alias» : String
  deriving DecidableEq

/-- Embedding of `convert_to_prometheus` of src/shelly_service.rs.  The Rust
function computes `Utc::now()` internally; real time is not embeddable, so the
already-rendered timestamp text is passed as the parameter `now`.  Everything
else is the `format!` template verbatim: seven lines joined by newlines, each
value interpolated through serde_json's `Display` (`Json.display`) after
`value[key]` indexing (`Json.index`). -/
def convert_to_prometheus (now : String) (http_data : Json) («alias» : String) : String :=
  "current_datetime\x7bhostname=" ++ «alias» ++ "\x7d " ++ now ++ "\n" ++
  "power_watts\x7bhostname=" ++ «alias» ++ "\x7d " ++ (http_data.index "apower").display ++ "\n" ++
  "voltage\x7bhostname=" ++ «alias» ++ "\x7d " ++ (http_data.index "voltage").display ++ "\n" ++
  "current_amps\x7bhostname=" ++ «alias» ++ "\x7d " ++ (http_data.index "current").display ++ "\n" ++
  "temperature_celsius\x7bhostname=" ++ «alias» ++ "\x7d " ++
    ((http_data.index "temperature").index "tC").display ++ "\n" ++
  "temperature_fahrenheit\x7bhostname=" ++ «alias» ++ "\x7d " ++
    ((http_data.index "temperature").index "tF").display ++ "\n" ++
  "running_total_power_consumed_watts\x7bhostname=" ++ «alias» ++ "\x7d " ++
    ((http_data.index "aenergy").index "total").display

/-- What one HTTP GET to a device can come back as, seen from
call_shelly_plug: a transport-level failure (`HTTP_CLIENT.get(url).send()`
returning `Err`), or a response carrying a status code and raw body bytes.
Reading the body is modelled as succeeding; its bytes are `List Nat`. -/
inductive HttpOutcome where
  | failure
  | response (status : Nat) (body : List Nat)

/-- The outcome of running a fallible Rust function: a clean `Err`, a clean
`Ok`, or a panic (the `.expect(...)` call in call_shelly_plug can panic, which
is neither of the `Result` cases). -/
inductive RunResult (α : Type) where
  | panicked (msg : String)
  | err (e : String)
  | ok (a : α)
  deriving DecidableEq

/-- Whether a run result is a clean `Ok`. -/
def RunResult.isOk {α : Type} : RunResult α → Bool
  | .ok _ => true
  | _ => false

/-- The `Ok` payload of a run result, with `Json.null` standing in elsewhere
(only ever read under an `isOk` hypothesis). -/
def okValue : RunResult Json → Json
  | .ok j => j
  | _ => Json.null

/-- Whether a byte is a UTF-8 continuation byte. -/
def utf8Cont (b : Nat) : Bool :=
  decide (0x80 ≤ b ∧ b ≤ 0xBF)

/-- The well-formed UTF-8 byte sequences, exactly the ones Rust's
`String::from_utf8` accepts: ASCII, and 2/3/4-byte sequences excluding
overlong forms, surrogates and code points above U+10FFFF. -/
def validUtf8 : List Nat → Bool
  | [] => true
  | b :: rest =>
    if b ≤ 0x7F then validUtf8 rest
    else if 0xC2 ≤ b ∧ b ≤ 0xDF then
      match rest with
      | c1 :: r => utf8Cont c1 && validUtf8 r
      | [] => false
    else if b = 0xE0 then
      match rest with
      | c1 :: c2 :: r => decide (0xA0 ≤ c1 ∧ c1 ≤ 0xBF) && utf8Cont c2 && validUtf8 r
      | _ => false
    else if (0xE1 ≤ b ∧ b ≤ 0xEC) ∨ b = 0xEE ∨ b = 0xEF then
      match rest with
      | c1 :: c2 :: r => utf8Cont c1 && utf8Cont c2 && validUtf8 r
      | _ => false
    else if b = 0xED then
      match rest with
      | c1 :: c2 :: r => decide (0x80 ≤ c1 ∧ c1 ≤ 0x9F) && utf8Cont c2 && validUtf8 r
      | _ => false
    else if b = 0xF0 then
      match rest with
      | c1 :: c2 :: c3 :: r =>
          decide (0x90 ≤ c1 ∧ c1 ≤ 0xBF) && utf8Cont c2 && utf8Cont c3 && validUtf8 r
      | _ => false
    else if 0xF1 ≤ b ∧ b ≤ 0xF3 then
      match rest with
      | c1 :: c2 :: c3 :: r => utf8Cont c1 && utf8Cont c2 && utf8Cont c3 && validUtf8 r
      | _ => false
    else if b = 0xF4 then
      match rest with
      | c1 :: c2 :: c3 :: r =>
          decide (0x80 ≤ c1 ∧ c1 ≤ 0x8F) && utf8Cont c2 && utf8Cont c3 && validUtf8 r
      | _ => false
    else false

/-- Embedding of `call_shelly_plug` of src/shelly_service.rs.  The network is
the `outcome` argument; serde_json's `from_slice` behind `output.json()` is
the injected `parseBody` (the repository treats it as a black box that either
yields a `Value` or fails).  The branches mirror the source in order: a send
error returns `Err("Failed to connect to API!")`; a status outside 200..=299
logs the body decoded by `String::from_utf8(..).expect("Found invalid UTF-8
data!")` — a panic when the bytes are not valid UTF-8 — and returns
`Err("API request failed with non 200 status code")`; a body that does not
parse returns `Err("Invalid response!")`; otherwise `Ok(payload)`. -/
def call_shelly_plug (parseBody : List Nat → Option Json) (outcome : HttpOutcome) :
    RunResult Json :=
  match outcome with
  | .failure => .err "Failed to connect to API!"
  | .response status body =>
    if status < 200 ∨ status > 299 then
      if validUtf8 body then .err "API request failed with non 200 status code"
      else .panicked "Found invalid UTF-8 data!"
    else
      match parseBody body with
      | some payload => .ok payload
      | none => .err "Invalid response!"

/-- The `for plug in plugs` loop of `get_metrics`, with the loop state made
explicit: `i` counts how many devices have been rendered (it only feeds the
per-call timestamp oracle `now`), `first` and `output` are the source's
mutable locals.  A failing call short-circuits through `?`; a panic
propagates. -/
def getMetricsLoop (world : String → HttpOutcome) (parseBody : List Nat → Option Json)
    (now : Nat → String) :
    List ShellySmartPlug → Nat → Bool → String → RunResult String
  | [], _, _, output => .ok output
  | plug :: rest, i, first, output =>
    match call_shelly_plug parseBody (world plug.url) with
    | .panicked m => .panicked m
    | .err e => .err e
    | .ok raw_data =>
      let fmt_data := convert_to_prometheus (now i) raw_data plug.«alias»
      let output1 := if !first then output ++ "\n" else output
      getMetricsLoop world parseBody now rest (i + 1) false (output1 ++ fmt_data)

/-- Embedding of `pub async fn get_metrics` of src/shelly_service.rs.  The
HTTP world (`world`), the JSON parser (`parseBody`) and the clock readings
(`now`, indexed by how many devices were already rendered) are injected;
everything else is the source's loop. -/
def get_metrics (world : String → HttpOutcome) (parseBody : List Nat → Option Json)
    (now : Nat → String) (plugs : List ShellySmartPlug) : RunResult String :=
  getMetricsLoop world parseBody now plugs 0 true ""

/-- Substring search on character lists: Rust's `str::contains(&str)` checks
whether the pattern occurs at some position of the haystack. -/
def listContainsAux : List Char → List Char → Bool
  | [], pat => pat.isEmpty
  | h :: t, pat => pat.isPrefixOf (h :: t) || listContainsAux t pat

/-- Rust's `String::contains`, the matching used by `load_plugs` to pick a
mapping entry for an address. -/
def strContains (s pat : String) : Bool :=
  listContainsAux s.data pat.data

/-- Rust's `str::split(sep)` on one separator character: the (always
non-empty) list of pieces between occurrences of `sep`. -/
def splitChar (sep : Char) : List Char → List (List Char)
  | [] => [[]]
  | c :: rest =>
    if c = sep then [] :: splitChar sep rest
    else
      match splitChar sep rest with
      | [] => [[c]]
      | p :: ps => (c :: p) :: ps

/-- The command-line arguments that reach `load_plugs` (struct `Args` of
src/main.rs; clap parsing itself is out of scope). -/
structure Args where
  ip_addrs : List String
  server_port : Nat
  hostname_ip_mapping : List String

/-- The inner `for mapping in &cli_args.hostname_ip_mapping` loop of
`load_plugs`: the first entry containing `ip` as a substring wins; a winning
entry without a `:` warns and breaks leaving the alias at the raw address; a
winning entry with a `:` assigns `mapping.split(':')[1]` and breaks.  The
source indexes `[1]` unconditionally, which the `contains(":")` guard makes
safe; the embedding writes the same element through `get?` with `[]` as the
never-reached default. -/
def loadAliasLoop (ip : String) : List String → String
  | [] => ip
  | mapping :: rest =>
    if strContains mapping ip then
      if strContains mapping ":" = false then ip
      else String.mk (((splitChar ':' mapping.data).get? 1).getD [])
    else loadAliasLoop ip rest

/-- Embedding of `load_plugs` of src/main.rs: one device per configured
address, in order, with the URL built by the `format!` template and the alias
from the mapping loop. -/
def load_plugs (cli_args : Args) : List ShellySmartPlug :=
  cli_args.ip_addrs.map (fun ip =>
    { url := "http://" ++ ip ++ "/rpc/Switch.GetStatus?id=0",
      «alias» := loadAliasLoop ip cli_args.hostname_ip_mapping })

/-- Joining a list of text lines with single newlines, the reading of
"newline-separated lines" used to state the exposition-text properties. -/
def joinNL : List String → String
  | [] => ""
  | [x] => x
  | x :: xs => x ++ "\n" ++ joinNL xs

/-- The seven exposition lines of one device block as the spec words them:
`<metric_name>{hostname=<alias>} <value>` with the metric names in the literal
order current_datetime, power_watts, voltage, current_amps,
temperature_celsius, temperature_fahrenheit,
running_total_power_consumed_watts. -/
def specBlockLines (now «alias» : String) (j : Json) : List String :=
  ["current_datetime\x7bhostname=" ++ «alias» ++ "\x7d " ++ now,
   "power_watts\x7bhostname=" ++ «alias» ++ "\x7d " ++ (j.index "apower").display,
   "voltage\x7bhostname=" ++ «alias» ++ "\x7d " ++ (j.index "voltage").display,
   "current_amps\x7bhostname=" ++ «alias» ++ "\x7d " ++ (j.index "current").display,
   "temperature_celsius\x7bhostname=" ++ «alias» ++ "\x7d " ++
     ((j.index "temperature").index "tC").display,
   "temperature_fahrenheit\x7bhostname=" ++ «alias» ++ "\x7d " ++
     ((j.index "temperature").index "tF").display,
   "running_total_power_consumed_watts\x7bhostname=" ++ «alias» ++ "\x7d " ++
     ((j.index "aenergy").index "total").display]

/-- The text strictly between the first `:` of a string and the following `:`
or the end, and `""` when there is no `:` at all — the spec-level reading of
what `split(':')[1]` assigns. -/
def betweenFirstColons (m : String) : String :=
  String.mk (((m.data.dropWhile (fun c => c ≠ ':')).drop 1).takeWhile (fun c => c ≠ ':'))

/-- The alias `load_plugs` assigns to one address, described the way the
claims word it: the first mapping entry containing the address anywhere as a
substring decides; a well-formed winner (one holding a `:`) maps to the text
between its first and second `:`, any other outcome falls back to the raw
address. -/
def c10AliasSpec (ip : String) (mappings : List String) : String :=
  match mappings.find? (fun m => strContains m ip) with
  | none => ip
  | some m => if strContains m ":" then betweenFirstColons m else ip

/-- The per-device line blocks of one scrape, in device order starting at
position `i`: block `i` is built from device `i`'s alias and fetched payload. -/
def deviceBlocks (world : String → HttpOutcome) (parseBody : List Nat → Option Json)
    (now : Nat → String) : Nat → List ShellySmartPlug → List (List String)
  | _, [] => []
  | i, p :: rest =>
    specBlockLines (now i) p.«alias» (okValue (call_shelly_plug parseBody (world p.url))) ::
      deviceBlocks world parseBody now (i + 1) rest

/-- Plain concatenation of strings, used to state the loop invariant. -/
def concatAll : List String → String
  | [] => ""
  | s :: rest => s ++ concatAll rest

theorem conv_eq_joinNL (now : String) (j : Json) (a : String) :
    convert_to_prometheus now j a = joinNL (specBlockLines now a j) := by
  simp only [convert_to_prometheus, specBlockLines, joinNL, String.append_assoc]

theorem joinNL_cons (x : String) (l : List String) (hl : l ≠ []) :
    joinNL (x :: l) = x ++ "\n" ++ joinNL l := by
  cases l with
  | nil => exact absurd rfl hl
  | cons y ys => simp [joinNL, String.append_assoc]

theorem joinNL_append (a b : List String) (ha : a ≠ []) (hb : b ≠ []) :
    joinNL (a ++ b) = joinNL a ++ "\n" ++ joinNL b := by
  induction a with
  | nil => exact absurd rfl ha
  | cons x xs ih =>
    cases xs with
    | nil =>
      simp only [List.singleton_append]
      rw [joinNL_cons x b hb]
      rfl
    | cons y ys =>
      have hxs : (y :: ys : List String) ≠ [] := by simp
      have hab : (y :: ys ++ b : List String) ≠ [] := by simp
      rw [List.cons_append, joinNL_cons x (y :: ys ++ b) hab, ih hxs,
        joinNL_cons x (y :: ys) hxs]
      simp [String.append_assoc]

theorem joinNL_flatten (L : List String) (Ls : List (List String))
    (hL : L ≠ []) (hLs : ∀ M ∈ Ls, M ≠ []) :
    joinNL (L :: Ls).flatten =
      joinNL L ++ concatAll (Ls.map (fun ls => "\n" ++ joinNL ls)) := by
  induction Ls generalizing L with
  | nil => simp [concatAll, String.append_empty]
  | cons M Ls' ih =>
    have hM : M ≠ [] := hLs M (by simp)
    have hMs : ∀ K ∈ Ls', K ≠ [] := fun K hK => hLs K (by simp [hK])
    have hjoin : (M :: Ls').flatten ≠ [] := by
      cases M with
      | nil => exact absurd rfl hM
      | cons c cs => simp [List.flatten]
    calc joinNL (L :: M :: Ls').flatten
        = joinNL (L ++ (M :: Ls').flatten) := by simp [List.flatten]
      _ = joinNL L ++ "\n" ++ joinNL (M :: Ls').flatten := joinNL_append _ _ hL hjoin
      _ = joinNL L ++ "\n" ++ (joinNL M ++ concatAll (Ls'.map (fun ls => "\n" ++ joinNL ls))) := by
          rw [ih M hM hMs]
      _ = joinNL L ++ concatAll ((M :: Ls').map (fun ls => "\n" ++ joinNL ls)) := by
          simp [concatAll, String.append_assoc]

theorem specBlockLines_ne_nil (now a : String) (j : Json) : specBlockLines now a j ≠ [] := by
  simp [specBlockLines]

theorem deviceBlocks_ne_nil (world : String → HttpOutcome) (parseBody : List Nat → Option Json)
    (now : Nat → String) (i : Nat) (plugs : List ShellySmartPlug) :
    ∀ M ∈ deviceBlocks world parseBody now i plugs, M ≠ [] := by
  induction plugs generalizing i with
  | nil => simp [deviceBlocks]
  | cons p rest ih =>
    intro M hM
    simp only [deviceBlocks, List.mem_cons] at hM
    rcases hM with h | h
    · rw [h]; exact specBlockLines_ne_nil _ _ _
    · exact ih (i + 1) M h

theorem getMetricsLoop_ok_false (world : String → HttpOutcome)
    (parseBody : List Nat → Option Json) (now : Nat → String) :
    ∀ (plugs : List ShellySmartPlug) (i : Nat) (out : String),
      (∀ p ∈ plugs, (call_shelly_plug parseBody (world p.url)).isOk = true) →
      getMetricsLoop world parseBody now plugs i false out =
        .ok (out ++ concatAll ((deviceBlocks world parseBody now i plugs).map
          (fun ls => "\n" ++ joinNL ls))) := by
  intro plugs
  induction plugs with
  | nil =>
    intro i out _
    simp [getMetricsLoop, deviceBlocks, concatAll, String.append_empty]
  | cons p rest ih =>
    intro i out h
    have hp := h p (by simp)
    cases hcall : call_shelly_plug parseBody (world p.url) with
    | panicked m => rw [hcall] at hp; simp [RunResult.isOk] at hp
    | err e => rw [hcall] at hp; simp [RunResult.isOk] at hp
    | ok j =>
      have hrest : ∀ q ∈ rest, (call_shelly_plug parseBody (world q.url)).isOk = true :=
        fun q hq => h q (by simp [hq])
      simp only [getMetricsLoop, hcall]
      rw [show (if (!false) = true then out ++ "\n" else out) = out ++ "\n" from rfl]
      rw [ih (i + 1) (out ++ "\n" ++ convert_to_prometheus (now i) j p.«alias») hrest]
      simp only [deviceBlocks, hcall, okValue, List.map_cons, concatAll,
        conv_eq_joinNL, String.append_assoc]

theorem get_metrics_ok (world : String → HttpOutcome) (parseBody : List Nat → Option Json)
    (now : Nat → String) (plugs : List ShellySmartPlug)
    (h : ∀ p ∈ plugs, (call_shelly_plug parseBody (world p.url)).isOk = true) :
    get_metrics world parseBody now plugs =
      .ok (joinNL (deviceBlocks world parseBody now 0 plugs).flatten) := by
  cases plugs with
  | nil => simp [get_metrics, getMetricsLoop, deviceBlocks, joinNL]
  | cons p rest =>
    have hp := h p (by simp)
    cases hcall : call_shelly_plug parseBody (world p.url) with
    | panicked m => rw [hcall] at hp; simp [RunResult.isOk] at hp
    | err e => rw [hcall] at hp; simp [RunResult.isOk] at hp
    | ok j =>
      have hrest : ∀ q ∈ rest, (call_shelly_plug parseBody (world q.url)).isOk = true :=
        fun q hq => h q (by simp [hq])
      simp only [get_metrics, getMetricsLoop, hcall]
      rw [show (if (!true) = true then ("" : String) ++ "\n" else "") = "" from rfl]
      rw [getMetricsLoop_ok_false world parseBody now rest 1
        ("" ++ convert_to_prometheus (now 0) j p.«alias») hrest]
      simp only [deviceBlocks, hcall, okValue, String.empty_append, conv_eq_joinNL]
      rw [joinNL_flatten _ _ (specBlockLines_ne_nil _ _ _)
        (deviceBlocks_ne_nil world parseBody now 1 rest)]

theorem deviceBlocks_length (world : String → HttpOutcome)
    (parseBody : List Nat → Option Json) (now : Nat → String) :
    ∀ (i : Nat) (plugs : List ShellySmartPlug),
      (deviceBlocks world parseBody now i plugs).length = plugs.length := by
  intro i plugs
  induction plugs generalizing i with
  | nil => simp [deviceBlocks]
  | cons p rest ih => simp [deviceBlocks, ih]

theorem deviceBlocks_block_length (world : String → HttpOutcome)
    (parseBody : List Nat → Option Json) (now : Nat → String) :
    ∀ (i : Nat) (plugs : List ShellySmartPlug),
      ∀ B ∈ deviceBlocks world parseBody now i plugs, B.length = 7 := by
  intro i plugs
  induction plugs generalizing i with
  | nil => simp [deviceBlocks]
  | cons p rest ih =>
    intro B hB
    simp only [deviceBlocks, List.mem_cons] at hB
    rcases hB with h | h
    · rw [h]; rfl
    · exact ih _ B h

/-- C1: for every device list whose devices all fetch successfully,
get_metrics returns Ok, and its body is the newline-joined flattening of
exactly one seven-line block per device, in input order, each block being the
literal lines `current_datetime`, `power_watts`, `voltage`, `current_amps`,
`temperature_celsius`, `temperature_fahrenheit`,
`running_total_power_consumed_watts` in the form
`<metric_name>{hostname=<alias>} <value>`; there are exactly as many blocks as
devices, and zero devices give the empty body (`joinNL []` is `""`). -/
theorem C1_get_metrics_all_ok (world : String → HttpOutcome)
    (parseBody : List Nat → Option Json) (now : Nat → String)
    (plugs : List ShellySmartPlug)
    (h : ∀ p ∈ plugs, (call_shelly_plug parseBody (world p.url)).isOk = true) :
    get_metrics world parseBody now plugs =
        .ok (joinNL (deviceBlocks world parseBody now 0 plugs).flatten) ∧
      (deviceBlocks world parseBody now 0 plugs).length = plugs.length ∧
      (∀ B ∈ deviceBlocks world parseBody now 0 plugs, B.length = 7) :=
  ⟨get_metrics_ok world parseBody now plugs h,
   deviceBlocks_length world parseBody now 0 plugs,
   deviceBlocks_block_length world parseBody now 0 plugs⟩

/-- The payload the repository's own test server returns (`good_shelly_data`
in src/shelly_service.rs), used as the concrete fixture of the closed
theorems. -/
def samplePayload : Json :=
  .obj [("apower", .num "1.0"), ("voltage", .num "2.0"), ("current", .num "3.0"),
        ("temperature", .obj [("tC", .num "20.1"), ("tF", .num "68.2")]),
        ("aenergy", .obj [("total", .num "45645634.12")])]

/-- A network in which every device answers 200 with some body. -/
def sampleWorld : String → HttpOutcome := fun _ => .response 200 [1]

/-- A parser that reads every body as the sample payload. -/
def sampleParse : List Nat → Option Json := fun _ => some samplePayload

/-- A deterministic clock oracle for the concrete runs. -/
def sampleNow : Nat → String := fun i => "2024-01-01T00:00:0" ++ toString i ++ ".000Z"

/-- The two devices of the repository's `test_get_metrics` test. -/
def samplePlugs : List ShellySmartPlug :=
  [⟨"http://10.0.0.1/rpc/Switch.GetStatus?id=0", "alias1"⟩,
   ⟨"http://10.0.0.2/rpc/Switch.GetStatus?id=0", "alias2"⟩]

/-- Closed witness for C1: the sample two-device scrape satisfies the
hypothesis (every fetch is Ok) and the conclusion. -/
theorem C1_witness :
    (∀ p ∈ samplePlugs, (call_shelly_plug sampleParse (sampleWorld p.url)).isOk = true) ∧
      (get_metrics sampleWorld sampleParse sampleNow samplePlugs =
          .ok (joinNL (deviceBlocks sampleWorld sampleParse sampleNow 0 samplePlugs).flatten) ∧
        (deviceBlocks sampleWorld sampleParse sampleNow 0 samplePlugs).length =
          samplePlugs.length ∧
        (∀ B ∈ deviceBlocks sampleWorld sampleParse sampleNow 0 samplePlugs, B.length = 7)) :=
  ⟨by decide, C1_get_metrics_all_ok sampleWorld sampleParse sampleNow samplePlugs (by decide)⟩

/-- The Ok body of a run result, with `""` standing in elsewhere. -/
def okBody : RunResult String → String
  | .ok s => s
  | _ => ""

/-- Splitting a string at every occurrence of one character, the newline
decomposition used to count a body's lines (Rust's `str::split`). -/
def splitOnChar (sep : Char) (s : String) : List String :=
  (splitChar sep s.data).map String.mk

/-- C2 amended: in a successful scrape over two devices the two blocks are
separated by exactly one newline — the last line of the first block is
immediately followed by the first line of the second block, with no blank
line anywhere — and the body consists of 7 + 7 = 14 lines, not 15. -/
theorem C2_two_devices_single_newline (world : String → HttpOutcome)
    (parseBody : List Nat → Option Json) (now : Nat → String)
    (p1 p2 : ShellySmartPlug)
    (h1 : (call_shelly_plug parseBody (world p1.url)).isOk = true)
    (h2 : (call_shelly_plug parseBody (world p2.url)).isOk = true) :
    get_metrics world parseBody now [p1, p2] =
        .ok (convert_to_prometheus (now 0) (okValue (call_shelly_plug parseBody (world p1.url)))
              p1.«alias» ++ "\n" ++
            convert_to_prometheus (now 1) (okValue (call_shelly_plug parseBody (world p2.url)))
              p2.«alias») ∧
      (specBlockLines (now 0) p1.«alias» (okValue (call_shelly_plug parseBody (world p1.url))) ++
        specBlockLines (now 1) p2.«alias»
          (okValue (call_shelly_plug parseBody (world p2.url)))).length = 14 := by
  constructor
  · have hall : ∀ p ∈ [p1, p2], (call_shelly_plug parseBody (world p.url)).isOk = true := by
      intro p hp
      rcases List.mem_cons.mp hp with rfl | hp'
      · exact h1
      · rcases List.mem_cons.mp hp' with rfl | hp''
        · exact h2
        · simp at hp''
    rw [get_metrics_ok world parseBody now [p1, p2] hall]
    have : (deviceBlocks world parseBody now 0 [p1, p2]).flatten =
        specBlockLines (now 0) p1.«alias» (okValue (call_shelly_plug parseBody (world p1.url))) ++
        specBlockLines (now 1) p2.«alias» (okValue (call_shelly_plug parseBody (world p2.url))) := by
      simp [deviceBlocks, List.flatten]
    rw [this, joinNL_append _ _ (specBlockLines_ne_nil _ _ _) (specBlockLines_ne_nil _ _ _),
      conv_eq_joinNL, conv_eq_joinNL]
  · simp [specBlockLines]

/-- Closed witness for C2's amended theorem at the sample two-device scrape. -/
theorem C2_witness :
    get_metrics sampleWorld sampleParse sampleNow samplePlugs =
        .ok (convert_to_prometheus (sampleNow 0) samplePayload "alias1" ++ "\n" ++
            convert_to_prometheus (sampleNow 1) samplePayload "alias2") ∧
      (specBlockLines (sampleNow 0) "alias1" samplePayload ++
        specBlockLines (sampleNow 1) "alias2" samplePayload).length = 14 :=
  C2_two_devices_single_newline sampleWorld sampleParse sampleNow
    ⟨"http://10.0.0.1/rpc/Switch.GetStatus?id=0", "alias1"⟩
    ⟨"http://10.0.0.2/rpc/Switch.GetStatus?id=0", "alias2"⟩ (by decide) (by decide)

/-- C2 counterexample: at the repository's own two-device fixture the body
equals the two blocks joined by a single newline, which differs from the two
blocks joined by a blank line (what the claim states); splitting the body at
newlines yields 14 lines, not 15, and line index 7 is the second block's
first line, not an empty line. -/
theorem C2_counterexample :
    get_metrics sampleWorld sampleParse sampleNow samplePlugs =
        .ok (convert_to_prometheus (sampleNow 0) samplePayload "alias1" ++ "\n" ++
            convert_to_prometheus (sampleNow 1) samplePayload "alias2") ∧
      convert_to_prometheus (sampleNow 0) samplePayload "alias1" ++ "\n" ++
          convert_to_prometheus (sampleNow 1) samplePayload "alias2" ≠
        convert_to_prometheus (sampleNow 0) samplePayload "alias1" ++ "\n\n" ++
          convert_to_prometheus (sampleNow 1) samplePayload "alias2" ∧
      (splitOnChar (Char.ofNat 10) (okBody (get_metrics sampleWorld sampleParse sampleNow
          samplePlugs))).length = 14 ∧
      (splitOnChar (Char.ofNat 10) (okBody (get_metrics sampleWorld sampleParse sampleNow
          samplePlugs))).get? 7 ≠ some "" := by
  refine ⟨?_, ?_, ?_, ?_⟩ <;> decide

theorem getMetricsLoop_err (world : String → HttpOutcome)
    (parseBody : List Nat → Option Json) (now : Nat → String)
    (p : ShellySmartPlug) (e : String) (post : List ShellySmartPlug)
    (hp : call_shelly_plug parseBody (world p.url) = .err e) :
    ∀ (pre : List ShellySmartPlug) (i : Nat) (first : Bool) (out : String),
      (∀ q ∈ pre, (call_shelly_plug parseBody (world q.url)).isOk = true) →
      getMetricsLoop world parseBody now (pre ++ p :: post) i first out = .err e := by
  intro pre
  induction pre with
  | nil =>
    intro i first out _
    simp only [List.nil_append, getMetricsLoop, hp]
  | cons q pre' ih =>
    intro i first out h
    have hq := h q (by simp)
    cases hcall : call_shelly_plug parseBody (world q.url) with
    | panicked m => rw [hcall] at hq; simp [RunResult.isOk] at hq
    | err e' => rw [hcall] at hq; simp [RunResult.isOk] at hq
    | ok j =>
      have hpre' : ∀ r ∈ pre', (call_shelly_plug parseBody (world r.url)).isOk = true :=
        fun r hr => h r (by simp [hr])
      simp only [List.cons_append, getMetricsLoop, hcall]
      exact ih _ _ _ hpre'

/-- C3: if the fetch of some device fails with error `e` while every device
before it fetches successfully, then get_metrics over the whole list returns
exactly `Err e` and no body: the devices after the failing one — whatever
their position, health, or fetch outcome under `world` — contribute nothing,
and the blocks already rendered for the preceding devices are discarded. -/
theorem C3_get_metrics_short_circuit (world : String → HttpOutcome)
    (parseBody : List Nat → Option Json) (now : Nat → String)
    (pre : List ShellySmartPlug) (p : ShellySmartPlug) (post : List ShellySmartPlug)
    (e : String)
    (hpre : ∀ q ∈ pre, (call_shelly_plug parseBody (world q.url)).isOk = true)
    (hp : call_shelly_plug parseBody (world p.url) = .err e) :
    get_metrics world parseBody now (pre ++ p :: post) = .err e :=
  getMetricsLoop_err world parseBody now p e post hp pre 0 true "" hpre

/-- A network in which the second address fails at transport level and
every other address answers 200. -/
def failWorld : String → HttpOutcome := fun url =>
  if url = "http://10.0.0.2/rpc/Switch.GetStatus?id=0" then .failure else .response 200 [1]

/-- Closed witness for C3: with the first sample device healthy, the second
failing at transport level and a healthy third device after it, the whole
scrape returns the connection error. -/
theorem C3_witness :
    (∀ q ∈ [(⟨"http://10.0.0.1/rpc/Switch.GetStatus?id=0", "alias1"⟩ : ShellySmartPlug)],
        (call_shelly_plug sampleParse (failWorld q.url)).isOk = true) ∧
      call_shelly_plug sampleParse
          (failWorld (⟨"http://10.0.0.2/rpc/Switch.GetStatus?id=0", "alias2"⟩ :
            ShellySmartPlug).url) = .err "Failed to connect to API!" ∧
      get_metrics failWorld sampleParse sampleNow
          ([⟨"http://10.0.0.1/rpc/Switch.GetStatus?id=0", "alias1"⟩] ++
            ⟨"http://10.0.0.2/rpc/Switch.GetStatus?id=0", "alias2"⟩ ::
            [⟨"http://10.0.0.3/rpc/Switch.GetStatus?id=0", "alias3"⟩]) =
        .err "Failed to connect to API!" :=
  ⟨by decide, rfl,
   C3_get_metrics_short_circuit failWorld sampleParse sampleNow
     [⟨"http://10.0.0.1/rpc/Switch.GetStatus?id=0", "alias1"⟩]
     ⟨"http://10.0.0.2/rpc/Switch.GetStatus?id=0", "alias2"⟩
     [⟨"http://10.0.0.3/rpc/Switch.GetStatus?id=0", "alias3"⟩]
     "Failed to connect to API!" (by decide) rfl⟩

/-- Whether `key` cannot be read out of `j`: `j` is not an object at all, or
it is an object without the key — the two degradation cases the spec lists
for a metric field. -/
def fieldAbsent (j : Json) (key : String) : Bool :=
  match j with
  | .obj fields => (Json.getField fields key).isNone
  | _ => true

theorem index_of_absent (j : Json) (key : String) (h : fieldAbsent j key = true) :
    j.index key = .null := by
  cases j with
  | obj fields =>
    simp only [fieldAbsent, Option.isNone_iff_eq_none] at h
    simp [Json.index, h]
  | null => rfl
  | bool b => rfl
  | num t => rfl
  | str s => rfl
  | arr items => rfl

/-- C4: the renderer is total — `convert_to_prometheus` is a function, and
for every JSON value and alias it yields the seven-line block
`joinNL (specBlockLines ...)` — and degrades missing data to the literal
text `null`: whenever one of the six expected fields is missing or its
parent (`temperature`, `aenergy`) is missing or not an object, the
corresponding line of the block reads `<metric_name>{hostname=<alias>} null`
instead of failing. -/
theorem C4_convert_total_null (now a : String) (j : Json) :
    convert_to_prometheus now j a = joinNL (specBlockLines now a j) ∧
      (fieldAbsent j "apower" = true →
        (specBlockLines now a j).get? 1 = some ("power_watts\x7bhostname=" ++ a ++ "\x7d null")) ∧
      (fieldAbsent j "voltage" = true →
        (specBlockLines now a j).get? 2 = some ("voltage\x7bhostname=" ++ a ++ "\x7d null")) ∧
      (fieldAbsent j "current" = true →
        (specBlockLines now a j).get? 3 =
          some ("current_amps\x7bhostname=" ++ a ++ "\x7d null")) ∧
      (fieldAbsent (j.index "temperature") "tC" = true →
        (specBlockLines now a j).get? 4 =
          some ("temperature_celsius\x7bhostname=" ++ a ++ "\x7d null")) ∧
      (fieldAbsent (j.index "temperature") "tF" = true →
        (specBlockLines now a j).get? 5 =
          some ("temperature_fahrenheit\x7bhostname=" ++ a ++ "\x7d null")) ∧
      (fieldAbsent (j.index "aenergy") "total" = true →
        (specBlockLines now a j).get? 6 =
          some ("running_total_power_consumed_watts\x7bhostname=" ++ a ++ "\x7d null")) := by
  refine ⟨conv_eq_joinNL now j a, ?_, ?_, ?_, ?_, ?_, ?_⟩ <;> intro h <;>
    simp [specBlockLines, index_of_absent _ _ h, Json.display, String.append_assoc]

/-- Closed witness for C4 at the totally malformed payload `Json.null`, where
every parent lookup and every field lookup misses. -/
theorem C4_witness :
    convert_to_prometheus "T" Json.null "a" = joinNL (specBlockLines "T" "a" Json.null) ∧
      (specBlockLines "T" "a" Json.null).get? 1 = some "power_watts\x7bhostname=a\x7d null" ∧
      (specBlockLines "T" "a" Json.null).get? 4 =
        some "temperature_celsius\x7bhostname=a\x7d null" ∧
      (specBlockLines "T" "a" Json.null).get? 6 =
        some "running_total_power_consumed_watts\x7bhostname=a\x7d null" :=
  ⟨(C4_convert_total_null "T" "a" Json.null).1,
   (C4_convert_total_null "T" "a" Json.null).2.1 rfl,
   (C4_convert_total_null "T" "a" Json.null).2.2.2.2.1 rfl,
   (C4_convert_total_null "T" "a" Json.null).2.2.2.2.2.2 rfl⟩

/-- A parser that rejects every body, modelling serde_json on non-JSON text
such as the repository test's `lol I am not json` body. -/
def noParse : List Nat → Option Json := fun _ => none

/-- C5: what call_shelly_plug actually does on non-2xx responses.  A non-2xx
response whose body bytes decode as UTF-8 (here `hi` and the empty body that
`unwrap_or_default` yields when reading fails) returns the UnexpectedStatus
error with no payload; but a non-2xx response whose body is not valid UTF-8
(the single byte 255) makes `String::from_utf8(..).expect(..)` panic instead
of returning any error — the code does not handle arbitrary byte sequences,
contrary to the claim. -/
theorem C5_non2xx_behavior :
    call_shelly_plug sampleParse (.response 500 [104, 105]) =
        .err "API request failed with non 200 status code" ∧
      call_shelly_plug sampleParse (.response 404 []) =
        .err "API request failed with non 200 status code" ∧
      call_shelly_plug sampleParse (.response 500 [255]) =
        .panicked "Found invalid UTF-8 data!" :=
  ⟨rfl, rfl, rfl⟩

theorem csp_connection_iff (parseBody : List Nat → Option Json) (outcome : HttpOutcome) :
    call_shelly_plug parseBody outcome = .err "Failed to connect to API!" ↔
      outcome = .failure := by
  cases outcome with
  | failure => simp [call_shelly_plug]
  | response status body =>
    constructor
    · intro hx
      by_cases hs : status < 200 ∨ status > 299
      · by_cases hv : validUtf8 body
        · simp only [call_shelly_plug, if_pos hs, if_pos hv] at hx
          simp at hx
        · rw [Bool.not_eq_true] at hv
          simp only [call_shelly_plug, if_pos hs, hv, Bool.false_eq_true, if_false] at hx
          simp at hx
      · simp only [call_shelly_plug, if_neg hs] at hx
        cases hp : parseBody body with
        | none => rw [hp] at hx; simp at hx
        | some j => rw [hp] at hx; simp at hx
    · intro hx
      simp at hx

theorem csp_unexpected_iff (parseBody : List Nat → Option Json) (outcome : HttpOutcome) :
    call_shelly_plug parseBody outcome = .err "API request failed with non 200 status code" ↔
      ∃ status body, outcome = .response status body ∧ (status < 200 ∨ status > 299) ∧
        validUtf8 body = true := by
  cases outcome with
  | failure => simp [call_shelly_plug]
  | response status body =>
    by_cases hs : status < 200 ∨ status > 299
    · by_cases hv : validUtf8 body
      · simp only [call_shelly_plug, if_pos hs, if_pos hv]
        exact ⟨fun _ => ⟨status, body, rfl, hs, hv⟩, fun _ => trivial⟩
      · rw [Bool.not_eq_true] at hv
        simp only [call_shelly_plug, if_pos hs, hv, Bool.false_eq_true, if_false]
        constructor
        · intro hx; simp at hx
        · rintro ⟨s, b, heq, h1, h2⟩; cases heq
          exact Bool.noConfusion (h2.symm.trans hv)
    · simp only [call_shelly_plug, if_neg hs]
      cases hp : parseBody body with
      | none =>
        constructor
        · intro hx; simp at hx
        · rintro ⟨s, b, heq, h1, h2⟩; cases heq; exact absurd h1 hs
      | some j =>
        constructor
        · intro hx; simp at hx
        · rintro ⟨s, b, heq, h1, h2⟩; cases heq; exact absurd h1 hs

theorem csp_panic_iff (parseBody : List Nat → Option Json) (outcome : HttpOutcome) :
    call_shelly_plug parseBody outcome = .panicked "Found invalid UTF-8 data!" ↔
      ∃ status body, outcome = .response status body ∧ (status < 200 ∨ status > 299) ∧
        validUtf8 body = false := by
  cases outcome with
  | failure => simp [call_shelly_plug]
  | response status body =>
    by_cases hs : status < 200 ∨ status > 299
    · by_cases hv : validUtf8 body
      · simp only [call_shelly_plug, if_pos hs, if_pos hv]
        constructor
        · intro hx; simp at hx
        · rintro ⟨s, b, heq, h1, h2⟩; cases heq
          exact Bool.noConfusion (hv.symm.trans h2)
      · rw [Bool.not_eq_true] at hv
        simp only [call_shelly_plug, if_pos hs, hv, Bool.false_eq_true, if_false]
        exact ⟨fun _ => ⟨status, body, rfl, hs, hv⟩, fun _ => trivial⟩
    · simp only [call_shelly_plug, if_neg hs]
      cases hp : parseBody body with
      | none =>
        constructor
        · intro hx; simp at hx
        · rintro ⟨s, b, heq, h1, h2⟩; cases heq; exact absurd h1 hs
      | some j =>
        constructor
        · intro hx; simp at hx
        · rintro ⟨s, b, heq, h1, h2⟩; cases heq; exact absurd h1 hs

theorem csp_invalid_iff (parseBody : List Nat → Option Json) (outcome : HttpOutcome) :
    call_shelly_plug parseBody outcome = .err "Invalid response!" ↔
      ∃ status body, outcome = .response status body ∧ ¬(status < 200 ∨ status > 299) ∧
        parseBody body = none := by
  cases outcome with
  | failure => simp [call_shelly_plug]
  | response status body =>
    by_cases hs : status < 200 ∨ status > 299
    · by_cases hv : validUtf8 body
      · simp only [call_shelly_plug, if_pos hs, if_pos hv]
        constructor
        · intro hx; simp at hx
        · rintro ⟨s, b, heq, h1, h2⟩; cases heq; exact absurd hs h1
      · rw [Bool.not_eq_true] at hv
        simp only [call_shelly_plug, if_pos hs, hv, Bool.false_eq_true, if_false]
        constructor
        · intro hx; simp at hx
        · rintro ⟨s, b, heq, h1, h2⟩; cases heq; exact absurd hs h1
    · simp only [call_shelly_plug, if_neg hs]
      cases hp : parseBody body with
      | none => exact ⟨fun _ => ⟨status, body, rfl, hs, hp⟩, fun _ => rfl⟩
      | some j =>
        constructor
        · intro hx; simp at hx
        · rintro ⟨s, b, heq, h1, h2⟩; cases heq
          exact Option.noConfusion (hp.symm.trans h2)

/-- C6: the full input/outcome characterization of call_shelly_plug.  The
three error kinds are pairwise distinct; ConnectionFailed is surfaced exactly
on transport failure; UnexpectedStatus is surfaced exactly on a response with
status outside [200,299] whose body is valid UTF-8 — on invalid UTF-8 the
code panics instead, so the claim's "UnexpectedStatus if and only if the
status is outside [200,299]" does not hold; InvalidResponseBody is surfaced
exactly on an in-range response whose body does not parse as JSON. -/
theorem C6_error_kind_iff_cause (parseBody : List Nat → Option Json)
    (outcome : HttpOutcome) :
    (("Failed to connect to API!" : String) ≠ "API request failed with non 200 status code" ∧
      ("Failed to connect to API!" : String) ≠ "Invalid response!" ∧
      ("API request failed with non 200 status code" : String) ≠ "Invalid response!") ∧
      (call_shelly_plug parseBody outcome = .err "Failed to connect to API!" ↔
        outcome = .failure) ∧
      (call_shelly_plug parseBody outcome = .err "API request failed with non 200 status code" ↔
        ∃ status body, outcome = .response status body ∧ (status < 200 ∨ status > 299) ∧
          validUtf8 body = true) ∧
      (call_shelly_plug parseBody outcome = .panicked "Found invalid UTF-8 data!" ↔
        ∃ status body, outcome = .response status body ∧ (status < 200 ∨ status > 299) ∧
          validUtf8 body = false) ∧
      (call_shelly_plug parseBody outcome = .err "Invalid response!" ↔
        ∃ status body, outcome = .response status body ∧ ¬(status < 200 ∨ status > 299) ∧
          parseBody body = none) :=
  ⟨⟨by decide, by decide, by decide⟩,
   csp_connection_iff parseBody outcome, csp_unexpected_iff parseBody outcome,
   csp_panic_iff parseBody outcome, csp_invalid_iff parseBody outcome⟩

theorem listContainsAux_iff (pat : List Char) :
    ∀ hay, listContainsAux hay pat = true ↔ ∃ pre post, hay = pre ++ pat ++ post := by
  intro hay
  induction hay with
  | nil =>
    simp only [listContainsAux, List.isEmpty_iff]
    constructor
    · intro h; exact ⟨[], [], by simp [h]⟩
    · rintro ⟨pre, post, h⟩
      rcases List.append_eq_nil.mp (List.append_eq_nil.mp h.symm).1 with ⟨-, h2⟩
      exact h2
  | cons c t ih =>
    simp only [listContainsAux, Bool.or_eq_true, List.isPrefixOf_iff_prefix, ih]
    constructor
    · rintro (⟨post, hp⟩ | ⟨pre, post, h⟩)
      · exact ⟨[], post, by simp [hp.symm]⟩
      · exact ⟨c :: pre, post, by simp [h]⟩
    · rintro ⟨pre, post, h⟩
      cases pre with
      | nil => exact Or.inl ⟨post, by simpa using h.symm⟩
      | cons d pre' =>
        simp only [List.cons_append] at h
        injection h with h1 h2
        exact Or.inr ⟨pre', post, h2⟩

theorem strContains_iff (s pat : String) :
    strContains s pat = true ↔ ∃ pre post, s.data = pre ++ pat.data ++ post :=
  listContainsAux_iff pat.data s.data

theorem splitChar_ne_nil (sep : Char) (cs : List Char) : splitChar sep cs ≠ [] := by
  cases cs with
  | nil => simp [splitChar]
  | cons c rest =>
    by_cases h : c = sep
    · simp [splitChar, h]
    · simp only [splitChar, if_neg h]
      cases hsp : splitChar sep rest with
      | nil => simp
      | cons p ps => simp

theorem splitChar_head (sep : Char) :
    ∀ cs, (splitChar sep cs).get? 0 = some (cs.takeWhile (fun c => c ≠ sep)) := by
  intro cs
  induction cs with
  | nil => rfl
  | cons c rest ih =>
    by_cases h : c = sep
    · simp [splitChar, h, List.takeWhile]
    · simp only [splitChar, if_neg h]
      cases hsp : splitChar sep rest with
      | nil => exact absurd hsp (splitChar_ne_nil sep rest)
      | cons p ps =>
        rw [hsp] at ih
        simp only [List.get?] at ih
        simp only [List.get?, List.takeWhile, Option.some.injEq] at *
        simp [decide_not, h, ih]

theorem splitChar_get1 (sep : Char) :
    ∀ cs, ((splitChar sep cs).get? 1).getD [] =
      ((cs.dropWhile (fun c => c ≠ sep)).drop 1).takeWhile (fun c => c ≠ sep) := by
  intro cs
  induction cs with
  | nil => rfl
  | cons c rest ih =>
    by_cases h : c = sep
    · simp only [splitChar, if_pos h, List.dropWhile]
      have hpred : (decide ¬c = sep) = false := by simp [h]
      rw [hpred]
      simp only [List.drop_succ_cons, List.drop_zero, List.get?]
      cases hsp : splitChar sep rest with
      | nil => exact absurd hsp (splitChar_ne_nil sep rest)
      | cons p ps =>
        have := splitChar_head sep rest
        rw [hsp] at this
        simp only [List.get?, Option.some.injEq] at this
        simp [this]
    · simp only [splitChar, if_neg h, List.dropWhile]
      have hpred : (decide ¬c = sep) = true := by simp [h]
      rw [hpred]
      cases hsp : splitChar sep rest with
      | nil => exact absurd hsp (splitChar_ne_nil sep rest)
      | cons p ps =>
        rw [hsp] at ih
        simpa using ih

theorem loadAlias_part_eq_between (m : String) :
    String.mk (((splitChar ':' m.data).get? 1).getD []) = betweenFirstColons m := by
  rw [betweenFirstColons, splitChar_get1]

theorem loadAliasLoop_eq_spec (ip : String) :
    ∀ mappings, loadAliasLoop ip mappings = c10AliasSpec ip mappings := by
  intro mappings
  induction mappings with
  | nil => rfl
  | cons m rest ih =>
    by_cases hm : strContains m ip = true
    · rw [loadAliasLoop, if_pos hm]
      simp only [c10AliasSpec, List.find?, hm]
      by_cases hc : strContains m ":" = true
      · rw [if_neg (by simp [hc]), if_pos hc, loadAlias_part_eq_between]
      · rw [if_pos (by simpa using hc), if_neg hc]
    · rw [loadAliasLoop, if_neg hm, ih]
      simp only [c10AliasSpec, List.find?,
        show strContains m ip = false from by simpa using hm]

/-- C10: the mapping-application rule of load_plugs, proved as a refinement:
every produced device carries the source's URL template, and its alias is
`c10AliasSpec` — the first entry (in mapping-list order) containing the
address anywhere as a substring decides, and a deciding entry with a `:`
assigns the text strictly between its first and second `:`; `strContains` is
genuine substring containment.  The two concrete conjuncts show the pitfalls
the claim names: entry `10.0.0.11:other` captures address `10.0.0.1`, and an
entry with several `:` assigns only the text before the second one. -/
theorem C10_load_plugs_first_substring_match (args : Args) :
    load_plugs args = args.ip_addrs.map (fun ip =>
        { url := "http://" ++ ip ++ "/rpc/Switch.GetStatus?id=0",
          «alias» := c10AliasSpec ip args.hostname_ip_mapping }) ∧
      (∀ m ip : String, strContains m ip = true ↔ ∃ pre post, m.data = pre ++ ip.data ++ post) ∧
      (load_plugs ⟨["10.0.0.1"], 9001, ["10.0.0.11:other"]⟩).map (fun p => p.«alias») =
        ["other"] ∧
      betweenFirstColons "a:b:c" = "b" :=
  ⟨by simp [load_plugs, loadAliasLoop_eq_spec],
   fun m ip => strContains_iff m ip,
   by decide, by decide⟩

/-- C7 counterexample: address `a` with mappings `[a~x, a:good]` has the
matching well-formed entry `a:good` (it contains both the address and the
`:` separator, and its mapped alias is `good`), yet load_plugs assigns the
raw address `a`, because the malformed entry `a~x` matches first and breaks
out of the loop. -/
theorem C7_counterexample :
    (load_plugs ⟨["a"], 9001, ["a~x", "a:good"]⟩).map (fun p => p.«alias») = ["a"] ∧
      strContains "a:good" "a" = true ∧ strContains "a:good" ":" = true ∧
      betweenFirstColons "a:good" = "good" ∧ ("a" : String) ≠ "good" := by
  refine ⟨?_, ?_, ?_, ?_, ?_⟩ <;> decide

/-- C7 amended: alias derivation is decided by the first mapping entry (in
list order) containing the address as a substring: a well-formed first match
(one holding `:`) assigns its mapped alias, a malformed first match (no `:`)
or no match at all falls back to the raw address; the 10.0.0.x scenario
yields the aliases the claim lists. -/
theorem C7_alias_first_match (ip : String) (mappings : List String) :
    (List.find? (fun m => strContains m ip) mappings = none →
        loadAliasLoop ip mappings = ip) ∧
      (∀ m, List.find? (fun m => strContains m ip) mappings = some m →
        strContains m ":" = true → loadAliasLoop ip mappings = betweenFirstColons m) ∧
      (∀ m, List.find? (fun m => strContains m ip) mappings = some m →
        strContains m ":" = false → loadAliasLoop ip mappings = ip) ∧
      (load_plugs ⟨["10.0.0.1", "10.0.0.2", "10.0.0.3"], 9001,
          ["10.0.0.1~something_invalid", "10.0.0.2:valid"]⟩).map (fun p => p.«alias») =
        ["10.0.0.1", "valid", "10.0.0.3"] := by
  refine ⟨?_, ?_, ?_, by decide⟩
  · intro h
    rw [loadAliasLoop_eq_spec, c10AliasSpec, h]
  · intro m hfind hc
    rw [loadAliasLoop_eq_spec]
    simp only [c10AliasSpec, hfind]
    rw [if_pos hc]
  · intro m hfind hc
    rw [loadAliasLoop_eq_spec]
    simp only [c10AliasSpec, hfind]
    rw [if_neg (by simp [hc])]

/-- Closed witness for C7's amended theorem: a well-formed first match
assigns the mapped alias. -/
theorem C7_witness :
    List.find? (fun m => strContains m "b") ["b:c"] = some "b:c" ∧
      strContains "b:c" ":" = true ∧
      loadAliasLoop "b" ["b:c"] = betweenFirstColons "b:c" :=
  ⟨by decide, by decide, (C7_alias_first_match "b" ["b:c"]).2.1 "b:c" (by decide) (by decide)⟩

/-- C8 counterexample: the well-formed mapping entry `a:` (it contains the
address `a` and the separator) assigns the empty string as alias, so a device
whose alias is empty is constructed. -/
theorem C8_counterexample :
    (load_plugs ⟨["a"], 9001, ["a:"]⟩).map (fun p => p.«alias») = [""] := by decide

/-- C8 amended: every device built by load_plugs has a non-empty alias
provided every configured address is non-empty and every mapping entry
holding a `:` has non-empty text between its first and second `:` — without
those provisos the invariant fails (see the counterexample); the alias is
fixed at construction (the embedding is a pure function of the
configuration). -/
theorem C8_alias_nonempty (args : Args)
    (hip : ∀ ip ∈ args.ip_addrs, ip ≠ "")
    (hmap : ∀ m ∈ args.hostname_ip_mapping, strContains m ":" = true →
      betweenFirstColons m ≠ "") :
    ∀ d ∈ load_plugs args, d.«alias» ≠ "" := by
  intro d hd
  rw [load_plugs, List.mem_map] at hd
  rcases hd with ⟨ip, hip', rfl⟩
  simp only [loadAliasLoop_eq_spec]
  cases hfind : List.find? (fun m => strContains m ip) args.hostname_ip_mapping with
  | none => rw [c10AliasSpec, hfind]; exact hip ip hip'
  | some m =>
    simp only [c10AliasSpec, hfind]
    by_cases hc : strContains m ":" = true
    · rw [if_pos hc]
      exact hmap m (List.mem_of_find?_eq_some hfind) hc
    · rw [if_neg hc]
      exact hip ip hip'

/-- Closed witness for C8's amended theorem: non-empty addresses and a
mapping with non-empty alias text give only non-empty aliases. -/
theorem C8_witness :
    (∀ ip ∈ ["10.0.0.1"], ip ≠ "") ∧
      (∀ m ∈ ["10.0.0.1:den"], strContains m ":" = true → betweenFirstColons m ≠ "") ∧
      ∀ d ∈ load_plugs ⟨["10.0.0.1"], 9001, ["10.0.0.1:den"]⟩, d.«alias» ≠ "" :=
  ⟨by decide, by decide,
   C8_alias_nonempty ⟨["10.0.0.1"], 9001, ["10.0.0.1:den"]⟩ (by decide) (by decide)⟩

/-- The numeric value of a most-significant-first digit list. -/
def digitsToNat (ds : List Nat) : Nat :=
  ds.foldl (fun a d => a * 10 + d) 0

/-- The character of one decimal digit. -/
def digitChar (d : Nat) : Char :=
  Char.ofNat (48 + d)

/-- The text of a digit list. -/
def digitsToString (ds : List Nat) : String :=
  String.mk (ds.map digitChar)

/-- The fractional decimal token `<intPart>.<fracPart>` as it stands in the
device's JSON body. -/
def numToken (i f : List Nat) : String :=
  digitsToString i ++ "." ++ digitsToString f

/-- Removal of trailing zero digits. -/
def stripTrailingZeros (ds : List Nat) : List Nat :=
  (ds.reverse.dropWhile (fun d => d == 0)).reverse

/-- Modelled from the serde_json and ryu dependencies (not repository code):
with serde_json's default features a fractional JSON number is stored as an
IEEE-754 double and re-serialized by ryu in shortest round-trip decimal form.
Restricted to fractional decimal tokens whose value the double represents
exactly and whose minimal decimal form is that shortest representation (for
example 2.50, stored as the double 2.5 and printed `2.5`; the repository's
test values 1.0, 20.1, 68.2, 45645634.12 behave the same way), the round
trip prints the token with its trailing fractional zeros removed, keeping at
least one fractional digit. -/
def serdeNumRoundTrip (i f : List Nat) : String :=
  numToken i (if stripTrailingZeros f = [] then [0] else stripTrailingZeros f)

/-- The rational value a decimal token denotes. -/
def tokenValue (i f : List Nat) : ℚ :=
  (digitsToNat i : ℚ) + (digitsToNat f : ℚ) / 10 ^ f.length

theorem digitsToNat_append_zero (ds : List Nat) :
    digitsToNat (ds ++ [0]) = 10 * digitsToNat ds := by
  simp only [digitsToNat, List.foldl_append, List.foldl]
  omega

theorem digitsToNat_zeros (rs : List Nat) (h : ∀ d ∈ rs, d = 0) : digitsToNat rs = 0 := by
  induction rs with
  | nil => rfl
  | cons d t ih =>
    have hd : d = 0 := h d (by simp)
    subst hd
    have hz : digitsToNat (0 :: t) = digitsToNat t := by
      simp [digitsToNat, List.foldl]
    rw [hz]
    exact ih (fun d hd => h d (by simp [hd]))

theorem fracValue_strip (rs : List Nat) :
    (digitsToNat (rs.dropWhile (fun d => d == 0)).reverse : ℚ) /
        10 ^ (rs.dropWhile (fun d => d == 0)).reverse.length =
      (digitsToNat rs.reverse : ℚ) / 10 ^ rs.reverse.length := by
  induction rs with
  | nil => rfl
  | cons d t ih =>
    by_cases hd : d = 0
    · subst hd
      rw [List.dropWhile_cons, if_pos (by simp), ih, List.reverse_cons,
        digitsToNat_append_zero, List.length_append, List.length_reverse]
      push_cast
      simp only [List.length_singleton]
      rw [pow_succ]
      field_simp
      ring
    · rw [List.dropWhile_cons, if_neg (by simp [hd])]

theorem tokenValue_strip (i f : List Nat) :
    tokenValue i (if stripTrailingZeros f = [] then [0] else stripTrailingZeros f) =
      tokenValue i f := by
  by_cases h : stripTrailingZeros f = []
  · rw [if_pos h]
    have hz : ∀ d ∈ f, d = 0 := by
      intro d hd
      have hnil : f.reverse.dropWhile (fun d => d == 0) = [] :=
        List.reverse_eq_nil_iff.mp h
      have := List.dropWhile_eq_nil_iff.mp hnil d (List.mem_reverse.mpr hd)
      simpa using this
    have h1 : digitsToNat f = 0 := digitsToNat_zeros f hz
    have h2 : digitsToNat [0] = 0 := rfl
    simp [tokenValue, h1, h2]
  · rw [if_neg h]
    have := fracValue_strip f.reverse
    rw [List.reverse_reverse] at this
    unfold tokenValue stripTrailingZeros
    rw [this]

/-- C9 amended: the value printed for a fractional numeric field is not the
field's original token text but the re-serialization of the parsed numeric
value: the text is normalized (trailing fractional zeros dropped, at least
one fractional digit kept) while the numeric value itself is preserved
exactly — no unit conversion and, on exactly-representable decimals, no
rounding. -/
theorem C9_roundtrip_value (i f : List Nat) :
    tokenValue i (if stripTrailingZeros f = [] then [0] else stripTrailingZeros f) =
        tokenValue i f ∧
      serdeNumRoundTrip i f =
        numToken i (if stripTrailingZeros f = [] then [0] else stripTrailingZeros f) ∧
      (Json.num (serdeNumRoundTrip i f)).display = serdeNumRoundTrip i f :=
  ⟨tokenValue_strip i f, rfl, rfl⟩

/-- C9 counterexample: the token 2.50 — the claim's own example — is stored
and re-printed as 2.5, so the metric line carries `2.5`, not the original
text `2.50`; rendering the round-tripped number differs from rendering the
original token. -/
theorem C9_counterexample :
    numToken [2] [5, 0] = "2.50" ∧
      serdeNumRoundTrip [2] [5, 0] = "2.5" ∧
      ("2.5" : String) ≠ "2.50" ∧
      (specBlockLines "T" "a"
          (Json.obj [("apower", Json.num (serdeNumRoundTrip [2] [5, 0]))])).get? 1 =
        some "power_watts\x7bhostname=a\x7d 2.5" ∧
      convert_to_prometheus "T"
          (Json.obj [("apower", Json.num (serdeNumRoundTrip [2] [5, 0]))]) "a" ≠
        convert_to_prometheus "T"
          (Json.obj [("apower", Json.num (numToken [2] [5, 0]))]) "a" := by
  refine ⟨?_, ?_, ?_, ?_, ?_⟩ <;> decide

end ShellyExporter
